import Mathlib

/-!
Shallow embedding of the MQTT client protocol engine of this repository
(src/mqtt_tmp/src/client.rs, struct ClientNodeImpl and its Client impl).

Modelling decisions, stated once here:
* Callbacks (ClientCallback, topic handlers) are opaque closures in the source;
  they are modelled by a Nat identity, and an execution step returns the list of
  invoked callback identities instead of running them.
* Socket and Stream handles are opaque transport resources; they are modelled
  by Nat identities.
* Atom is an interned String; it is modelled by String.
* Vec<u8> payloads are modelled by List Nat.
* u16 counters are Nat kept below 65536; where the source performs u16
  arithmetic that can overflow, the model takes the result mod 65536.
* FnvHashMap is modelled by an association list with insert-replaces-key
  semantics (mapInsert / mapLookup / mapRemove / mapContains below).
* The deferred closures stored in socket_handlers, and the util::send_* calls
  they make, are modelled by a first-order Action value: util.rs is not part of
  the provided sources, and the spec describes it as a codec that serializes
  outgoing packets, so a send function is modelled as emitting a packet that
  carries exactly its arguments.
* Sending on the wire and arming the keep-alive timer are observable effects,
  modelled by a list of Event values returned next to the new state.
-/

namespace MqttTmp

/-- MQTT quality-of-service levels (mqtt3::QoS). -/
inductive QoS where
  | atMostOnce
  | atLeastOnce
  | exactlyOnce
deriving DecidableEq, Repr

/-- Modelled from the spec: one level of an mqtt3::TopicPath — a literal
level, the single-level wildcard "+", or the multi-level wildcard "#".
mqtt3 is an external crate; the spec's glossary and section 4.1 define the
wildcard semantics used here. -/
inductive Level where
  | lit (s : List Char)
  | single
  | multi
deriving DecidableEq, Repr

/-- Splits a character list at every slash, the way String::split("/") does:
an empty input yields one empty segment. -/
def splitOnSlash : List Char → List (List Char)
  | [] => [[]]
  | c :: rest =>
    let r := splitOnSlash rest
    if c = '/' then [] :: r
    else
      match r with
      | [] => [[c]]
      | h :: t => (c :: h) :: t

/-- Modelled from the spec: parsing one topic level. A lone "+" or "#" is a
wildcard; a level containing a wildcard character among other characters is
malformed (InvalidTopic). -/
def parseLevel (s : List Char) : Except String Level :=
  if s = ['+'] then .ok .single
  else if s = ['#'] then .ok .multi
  else if s.any (fun c => c = '+' || c = '#') then .error "InvalidTopic"
  else .ok (.lit s)

/-- Modelled from the spec: mqtt3::TopicPath::from_str — split the name on
slashes, parse each level, and require the multi-level wildcard to be the
final token. -/
def parsePath (name : String) : Except String (List Level) :=
  match (splitOnSlash name.data).mapM parseLevel with
  | .error e => .error e
  | .ok levels =>
    if levels.dropLast.any (fun l => l = Level.multi) then .error "InvalidTopic"
    else .ok levels

/-- True for the wildcard levels. -/
def Level.isWildcard : Level → Bool
  | .lit _ => false
  | .single => true
  | .multi => true

/-- Whether a parsed path contains a wildcard token (TopicPath::wildcards). -/
def hasWildcards (ls : List Level) : Bool := ls.any Level.isWildcard

/-- Modelled from the spec: mqtt3::TopicPath::is_match — "+" matches exactly
one topic level, "#" matches all remaining levels (including none). First
argument is the filter, second the published topic name. -/
def isMatch : List Level → List Level → Bool
  | [], [] => true
  | [], _ :: _ => false
  | .multi :: _, _ => true
  | .single :: ps, _ :: ts => isMatch ps ts
  | .single :: _, [] => false
  | .lit a :: ps, .lit b :: ts => a = b && isMatch ps ts
  | .lit _ :: _, _ => false

/-- Association-list model of FnvHashMap: membership test. -/
def mapContains {α β : Type} [DecidableEq α] (m : List (α × β)) (k : α) : Bool :=
  m.any fun p => decide (p.1 = k)

/-- Association-list model of FnvHashMap: lookup. -/
def mapLookup {α β : Type} [DecidableEq α] (m : List (α × β)) (k : α) : Option β :=
  (m.find? fun p => decide (p.1 = k)).map (fun p => p.2)

/-- Association-list model of FnvHashMap: insert, replacing any previous
binding of the key. -/
def mapInsert {α β : Type} [DecidableEq α] (m : List (α × β)) (k : α) (v : β) :
    List (α × β) :=
  (k, v) :: m.filter fun p => decide (¬ p.1 = k)

/-- Association-list model of FnvHashMap: remove. -/
def mapRemove {α β : Type} [DecidableEq α] (m : List (α × β)) (k : α) :
    List (α × β) :=
  m.filter fun p => decide (¬ p.1 = k)

/-- TopicData from client.rs: the parsed filter plus the registered handler
(the handler closure is modelled by its identity). -/
structure TopicData where
  topic : List Level
  func : Nat
deriving DecidableEq, Repr

/-- One outgoing transport action, as produced by the closures that client.rs
hands to handle_slot. Modelled from the spec: the util::send_* functions
(util.rs, not among the provided sources) serialize a packet carrying exactly
the arguments given to them, so an action records those arguments.
Note that the subscribe closure in the source captures the caller's original
topic list (with the caller's QoS), not the downgraded list ts that the
validation loop builds and never uses. -/
inductive Action where
  | connect (keepAlive : Nat) (hasWill : Bool)
  | subscribe (id : Nat) (topics : List (String × QoS))
  | unsubscribe (id : Nat) (topics : List String)
  | publish (retain : Bool) (qos : QoS) (topic : String) (payload : List Nat)
  | disconnect
deriving DecidableEq, Repr

/-- Observable effects of a step: a packet sent on the wire, or the keep-alive
timer being armed for the given number of seconds (NetTimers::set_timeout in
ClientNode::ping). -/
inductive Event where
  | sent (a : Action)
  | armedKeepAlive (secs : Nat)
deriving DecidableEq, Repr

/-- True exactly for the keep-alive arming event. -/
def Event.isArm : Event → Bool
  | .armedKeepAlive _ => true
  | .sent _ => false

/-- ClientNodeImpl from client.rs. -/
structure ClientNodeImpl where
  socket : Option Nat
  stream : Option Nat
  connect_func : Option Nat
  close_func : Option Nat
  curr_sub_id : Nat
  curr_unsub_id : Nat
  sub_map : List (Nat × Option Nat)
  attributes : List (String × List Nat)
  topics : List (String × TopicData)
  topic_patterns : List (String × TopicData)
  socket_handlers : List Action
  keep_alive : Nat
deriving DecidableEq, Repr

/-- ClientNode::new — the empty client state. -/
def newClient : ClientNodeImpl :=
  { socket := none, stream := none, connect_func := none, close_func := none,
    curr_sub_id := 0, curr_unsub_id := 0, sub_map := [], attributes := [],
    topics := [], topic_patterns := [], socket_handlers := [], keep_alive := 0 }

/-- ClientNode::ping — arms the keep-alive timer when the configured interval
is non-zero, otherwise does nothing. -/
def ping (s : ClientNodeImpl) : List Event :=
  if s.keep_alive > 0 then [Event.armedKeepAlive s.keep_alive] else []

/-- handle_slot from client.rs: with no socket attached the action is pushed
to the back of socket_handlers and nothing else happens (the early return
skips ping); with a socket attached the action executes immediately and then
ping is called. -/
def handle_slot (s : ClientNodeImpl) (func : Action) : ClientNodeImpl × List Event :=
  if s.socket.isNone then
    ({ s with socket_handlers := s.socket_handlers ++ [func] }, [])
  else
    (s, Event.sent func :: ping s)

/-- Client::set_stream from client.rs: pops every buffered action from the
front and executes it against the new transport, then stores the socket and
stream. ping is not called here. -/
def set_stream (s : ClientNodeImpl) (socket stream : Nat) : ClientNodeImpl × List Event :=
  ({ s with socket := some socket, stream := some stream, socket_handlers := [] },
   s.socket_handlers.map Event.sent)

/-- Client::connect from client.rs: stores the callbacks and the keep-alive
interval, then routes a CONNECT action through handle_slot. -/
def connect (s : ClientNodeImpl) (keep_alive : Nat) (hasWill : Bool)
    (close_func connect_func : Option Nat) : ClientNodeImpl × List Event :=
  handle_slot
    { s with close_func := close_func, connect_func := connect_func,
             keep_alive := keep_alive }
    (Action.connect keep_alive hasWill)

/-- is_topic_contains_wildcards from client.rs. -/
def is_topic_contains_wildcards (name : String) : Except String Bool :=
  match parsePath name with
  | .ok topic => .ok (hasWildcards topic)
  | .error _ => .error ("InvalidTopic, " ++ name)

/-- The validation loop shared by subscribe and unsubscribe in client.rs:
each topic name must parse, and must already have a handler registered in the
pattern map (wildcard names) or the exact map (other names); the first failure
aborts the whole call. The loop in the source also accumulates a
QoS-downgraded copy ts of the list, which it never uses afterwards. -/
def checkTopics (topics patterns : List (String × TopicData)) :
    List String → Except String Unit
  | [] => .ok ()
  | name :: rest =>
    match is_topic_contains_wildcards name with
    | .error e => .error e
    | .ok w =>
      if (if w then mapContains patterns name else mapContains topics name) then
        checkTopics topics patterns rest
      else
        .error ("Client Subscribe, topic " ++ name ++ " can't find handler!")

/-- Client::subscribe from client.rs: validate every topic, store the
completion callback at key 2*curr_sub_id+1 (u16 arithmetic, hence mod 65536),
advance the counter with wraparound after 65535, and route a SUBSCRIBE action
carrying the pre-increment counter and the caller's original topic list
through handle_slot. -/
def subscribe (s : ClientNodeImpl) (topics : List (String × QoS))
    (resp_func : Option Nat) : Except String (ClientNodeImpl × List Event) :=
  match checkTopics s.topics s.topic_patterns (topics.map Prod.fst) with
  | .error e => .error e
  | .ok _ =>
    .ok (handle_slot
      { s with
        sub_map := mapInsert s.sub_map ((2 * s.curr_sub_id + 1) % 65536) resp_func,
        curr_sub_id := if s.curr_sub_id < 65535 then s.curr_sub_id + 1 else 0 }
      (Action.subscribe s.curr_sub_id topics))

/-- Client::unsubscribe from client.rs: same validation, completion callback
stored at key 2*curr_unsub_id (u16 arithmetic), counter advanced with
wraparound, UNSUBSCRIBE action routed through handle_slot. -/
def unsubscribe (s : ClientNodeImpl) (topics : List String)
    (resp_func : Option Nat) : Except String (ClientNodeImpl × List Event) :=
  match checkTopics s.topics s.topic_patterns topics with
  | .error e => .error e
  | .ok _ =>
    .ok (handle_slot
      { s with
        sub_map := mapInsert s.sub_map ((2 * s.curr_unsub_id) % 65536) resp_func,
        curr_unsub_id := if s.curr_unsub_id < 65535 then s.curr_unsub_id + 1 else 0 }
      (Action.unsubscribe s.curr_unsub_id topics))

/-- Client::disconnect from client.rs: first routes a DISCONNECT action
through handle_slot (which may momentarily buffer it), then clears the
callbacks, both counters, the correlation table, the attributes, both topic
registries, and the buffered-action queue. -/
def disconnect (s : ClientNodeImpl) : ClientNodeImpl × List Event :=
  let r := handle_slot s Action.disconnect
  ({ r.1 with
     connect_func := none, close_func := none, curr_sub_id := 0,
     curr_unsub_id := 0, sub_map := [], attributes := [], topics := [],
     topic_patterns := [], socket_handlers := [] },
   r.2)

/-- Client::publish from client.rs: rejects wildcard topics, then routes a
PUBLISH action through handle_slot with the QoS hard-coded to AtMostOnce
(the caller's qos argument is ignored). -/
def publish (s : ClientNodeImpl) (retain : Bool) (_qos : QoS) (topic : String)
    (payload : List Nat) : Except String (ClientNodeImpl × List Event) :=
  match is_topic_contains_wildcards topic with
  | .error e => .error e
  | .ok true => .error "InvalidPublishTopic"
  | .ok false =>
    .ok (handle_slot s (Action.publish retain QoS.atMostOnce topic payload))

/-- Client::set_topic_handler from client.rs: the name must parse; wildcard
filters go to topic_patterns, others to topics. -/
def set_topic_handler (s : ClientNodeImpl) (name : String) (handler : Nat) :
    Except String ClientNodeImpl :=
  match parsePath name with
  | .error _ => .error ("InvalidTopic, " ++ name)
  | .ok topic =>
    if hasWildcards topic then
      .ok { s with topic_patterns := mapInsert s.topic_patterns name ⟨topic, handler⟩ }
    else
      .ok { s with topics := mapInsert s.topics name ⟨topic, handler⟩ }

/-- Client::remove_topic_handler from client.rs. -/
def remove_topic_handler (s : ClientNodeImpl) (name : String) :
    Except String ClientNodeImpl :=
  match parsePath name with
  | .error _ => .error ("InvalidTopic, " ++ name)
  | .ok topic =>
    if hasWildcards topic then
      .ok { s with topic_patterns := mapRemove s.topic_patterns name }
    else
      .ok { s with topics := mapRemove s.topics name }

/-- Client::add_attribute from client.rs: inserting is a no-op when the name
is already present. -/
def add_attribute (s : ClientNodeImpl) (name : String) (value : List Nat) :
    ClientNodeImpl :=
  if mapContains s.attributes name then s
  else { s with attributes := mapInsert s.attributes name value }

/-- Client::remove_attribute from client.rs. -/
def remove_attribute (s : ClientNodeImpl) (name : String) : ClientNodeImpl :=
  { s with attributes := mapRemove s.attributes name }

/-- Client::get_attribute from client.rs. -/
def get_attribute (s : ClientNodeImpl) (name : String) : Option (List Nat) :=
  mapLookup s.attributes name

/-- recv_sub_ack from client.rs: a Suback with packet identifier pid removes
the correlation entry at key 1 + pid*2 (u16 arithmetic) and invokes the
callback stored there, when one was stored. The second component lists the
invoked callback identities. -/
def recv_sub_ack (s : ClientNodeImpl) (pid : Nat) : ClientNodeImpl × List Nat :=
  match mapLookup s.sub_map ((1 + pid * 2) % 65536) with
  | some (some f) =>
    ({ s with sub_map := mapRemove s.sub_map ((1 + pid * 2) % 65536) }, [f])
  | _ => ({ s with sub_map := mapRemove s.sub_map ((1 + pid * 2) % 65536) }, [])

/-- recv_unsub_ack from client.rs: symmetric to recv_sub_ack, at key pid*2. -/
def recv_unsub_ack (s : ClientNodeImpl) (pid : Nat) : ClientNodeImpl × List Nat :=
  match mapLookup s.sub_map ((pid * 2) % 65536) with
  | some (some f) =>
    ({ s with sub_map := mapRemove s.sub_map ((pid * 2) % 65536) }, [f])
  | _ => ({ s with sub_map := mapRemove s.sub_map ((pid * 2) % 65536) }, [])

/-- recv_publish from client.rs: parse the published topic name (returning
silently on a parse error), unwrap the socket (modelled as none on the panic
path), invoke the exact-map handler registered under the verbatim name, then
invoke the handler of every pattern-map entry whose filter matches. The
result lists the invocations as (handler identity, payload) pairs. -/
def recv_publish (s : ClientNodeImpl) (topic_name : String) (payload : List Nat) :
    Option (List (Nat × List Nat)) :=
  match parsePath topic_name with
  | .error _ => some []
  | .ok publish_topic =>
    match s.socket with
    | none => none
    | some _ =>
      let exact :=
        match mapLookup s.topics topic_name with
        | some d => [(d.func, payload)]
        | none => []
      let pats :=
        (s.topic_patterns.filter fun p => isMatch p.2.topic publish_topic).map
          fun p => (p.2.func, payload)
      some (exact ++ pats)

/-- An application-level operation on the client, for reasoning about
sequences of calls. -/
inductive Op where
  | conn (keepAlive : Nat) (hasWill : Bool) (closeF connF : Option Nat)
  | sub (topics : List (String × QoS)) (respF : Option Nat)
  | unsub (topics : List String) (respF : Option Nat)
  | pub (retain : Bool) (qos : QoS) (topic : String) (payload : List Nat)
  | disc
deriving DecidableEq, Repr

/-- Runs one operation; a failing call leaves the state unchanged and emits
nothing, exactly as the early error returns in client.rs do. -/
def runOp (s : ClientNodeImpl) : Op → ClientNodeImpl × List Event
  | .conn ka w cf nf => connect s ka w cf nf
  | .sub ts rf =>
    match subscribe s ts rf with
    | .ok r => r
    | .error _ => (s, [])
  | .unsub ts rf =>
    match unsubscribe s ts rf with
    | .ok r => r
    | .error _ => (s, [])
  | .pub r q t p =>
    match publish s r q t p with
    | .ok x => x
    | .error _ => (s, [])
  | .disc => disconnect s

/-- Runs a sequence of operations, concatenating the emitted events. -/
def runOps (s : ClientNodeImpl) : List Op → ClientNodeImpl × List Event
  | [] => (s, [])
  | op :: rest =>
    let r := runOp s op
    let r2 := runOps r.1 rest
    (r2.1, r.2 ++ r2.2)

/-- The transport action a single operation submits from state s, or none
when the call fails its validation. -/
def opAction (s : ClientNodeImpl) : Op → Option Action
  | .conn ka w _ _ => some (Action.connect ka w)
  | .sub ts _ =>
    match checkTopics s.topics s.topic_patterns (ts.map Prod.fst) with
    | .ok _ => some (Action.subscribe s.curr_sub_id ts)
    | .error _ => none
  | .unsub ts _ =>
    match checkTopics s.topics s.topic_patterns ts with
    | .ok _ => some (Action.unsubscribe s.curr_unsub_id ts)
    | .error _ => none
  | .pub r _ t p =>
    match is_topic_contains_wildcards t with
    | .ok false => some (Action.publish r QoS.atMostOnce t p)
    | _ => none
  | .disc => some Action.disconnect

/-- The actions a sequence of operations submits, in submission order. -/
def submittedActions (s : ClientNodeImpl) : List Op → List Action
  | [] => []
  | op :: rest => (opAction s op).toList ++ submittedActions (runOp s op).1 rest

/-- Iterates n successful-or-failing subscribe calls with the same topic
list (tracking only the state). -/
def subN (s : ClientNodeImpl) (ts : List (String × QoS)) : Nat → ClientNodeImpl
  | 0 => s
  | n + 1 =>
    match subscribe (subN s ts n) ts none with
    | .ok r => r.1
    | .error _ => subN s ts n

/-- The wire packet identifier carried by the (n+1)-th subscribe call in the
iteration subN: the counter value read before that call increments it. -/
def wireIdN (s : ClientNodeImpl) (ts : List (String × QoS)) (n : Nat) : Nat :=
  (subN s ts n).curr_sub_id

/-- A topic-data binding for the literal one-level topic "a", handler 7. -/
def tdA : TopicData := ⟨[Level.lit ['a']], 7⟩

/-- A client attached to a transport, with a handler registered for "a". -/
def c1ex : ClientNodeImpl :=
  { newClient with socket := some 0, stream := some 0, topics := [("a", tdA)] }

/-- An unattached client whose subscribe counter sits at 32768, with a
handler registered for "a". -/
def c2ex : ClientNodeImpl :=
  { newClient with curr_sub_id := 32768, topics := [("a", tdA)] }

/-- An unattached client with a non-zero keep-alive interval and one buffered
action. -/
def c4ex : ClientNodeImpl :=
  { newClient with keep_alive := 1, socket_handlers := [Action.disconnect] }

/-- An operation sequence containing a disconnect after a publish. -/
def c5cexOps : List Op := [Op.pub false QoS.atMostOnce "t" [1], Op.disc]

/-- A single buffering publish operation. -/
def c5wOps : List Op := [Op.pub false QoS.atMostOnce "t" [1]]

/-- A client attached to a transport with one exact handler and two pattern
handlers registered. -/
def c6ex : ClientNodeImpl :=
  { newClient with
    socket := some 0, stream := some 0,
    topics := [("a/b", ⟨[Level.lit ['a'], Level.lit ['b']], 1⟩)],
    topic_patterns :=
      [("a/+", ⟨[Level.lit ['a'], Level.single], 2⟩),
       ("x/#", ⟨[Level.lit ['x'], Level.multi], 3⟩)] }

/-- The parsed form of the topic name "a/b". -/
def c6tl : List Level := [Level.lit ['a'], Level.lit ['b']]

/-- The dispatch result of publishing payload [9] to "a/b" against c6ex. -/
def c6out : List (Nat × List Nat) := [(1, [9]), (2, [9])]

/-- The result of a successful subscribe against c1ex, used to instantiate
theorems at a concrete input. -/
def c2wRes : ClientNodeImpl × List Event :=
  (subscribe c1ex [("a", QoS.atMostOnce)] (some 5)).toOption.getD (newClient, [])

/-- The result of a successful unsubscribe against c1ex, used to instantiate
theorems at a concrete input. -/
def c2wRes2 : ClientNodeImpl × List Event :=
  (unsubscribe c1ex ["a"] (some 5)).toOption.getD (newClient, [])

/-- A client attached to a transport with a non-zero keep-alive interval. -/
def kaEx : ClientNodeImpl := { c1ex with keep_alive := 5 }

end MqttTmp

namespace MqttTmp

theorem mapLookup_insert_self {α β : Type} [DecidableEq α] (m : List (α × β)) (k : α) (v : β) :
    mapLookup (mapInsert m k v) k = some v := by
  simp [mapLookup, mapInsert, List.find?]

theorem mapContains_insert_self {α β : Type} [DecidableEq α] (m : List (α × β)) (k : α) (v : β) :
    mapContains (mapInsert m k v) k = true := by
  simp [mapContains, mapInsert]

theorem mapLookup_mem {α β : Type} [DecidableEq α] {m : List (α × β)} {k : α} {v : β}
    (h : mapLookup m k = some v) : (k, v) ∈ m := by
  unfold mapLookup at h
  cases hf : m.find? (fun p => decide (p.1 = k)) with
  | none => rw [hf] at h; simp at h
  | some p =>
    rw [hf] at h
    simp only [Option.map_some'] at h
    have hm := List.mem_of_find?_eq_some hf
    have hp := List.find?_some hf
    simp only [decide_eq_true_eq] at hp
    have hpe : p = (k, v) := by
      obtain ⟨p1, p2⟩ := p
      simp only at hp h
      injection h with h2
      rw [hp, h2]
    rwa [hpe] at hm

theorem handle_slot_fst_preserve (s : ClientNodeImpl) (a : Action) :
    (handle_slot s a).1.socket = s.socket ∧ (handle_slot s a).1.stream = s.stream
    ∧ (handle_slot s a).1.sub_map = s.sub_map
    ∧ (handle_slot s a).1.curr_sub_id = s.curr_sub_id
    ∧ (handle_slot s a).1.curr_unsub_id = s.curr_unsub_id
    ∧ (handle_slot s a).1.topics = s.topics
    ∧ (handle_slot s a).1.topic_patterns = s.topic_patterns
    ∧ (handle_slot s a).1.attributes = s.attributes
    ∧ (handle_slot s a).1.keep_alive = s.keep_alive
    ∧ (handle_slot s a).1.connect_func = s.connect_func
    ∧ (handle_slot s a).1.close_func = s.close_func := by
  unfold handle_slot
  split <;> simp

theorem subscribe_ok_inv {s : ClientNodeImpl} {ts : List (String × QoS)}
    {rf : Option Nat} {r : ClientNodeImpl × List Event}
    (h : subscribe s ts rf = .ok r) :
    checkTopics s.topics s.topic_patterns (ts.map Prod.fst) = .ok ()
    ∧ r = handle_slot
        { s with sub_map := mapInsert s.sub_map ((2 * s.curr_sub_id + 1) % 65536) rf,
                 curr_sub_id := if s.curr_sub_id < 65535 then s.curr_sub_id + 1 else 0 }
        (Action.subscribe s.curr_sub_id ts) := by
  unfold subscribe at h
  split at h
  · exact absurd h (by simp)
  · rename_i u heq
    cases u
    injection h with h2
    exact ⟨heq, h2.symm⟩

theorem unsubscribe_ok_inv {s : ClientNodeImpl} {ts : List String}
    {rf : Option Nat} {r : ClientNodeImpl × List Event}
    (h : unsubscribe s ts rf = .ok r) :
    checkTopics s.topics s.topic_patterns ts = .ok ()
    ∧ r = handle_slot
        { s with sub_map := mapInsert s.sub_map ((2 * s.curr_unsub_id) % 65536) rf,
                 curr_unsub_id := if s.curr_unsub_id < 65535 then s.curr_unsub_id + 1 else 0 }
        (Action.unsubscribe s.curr_unsub_id ts) := by
  unfold unsubscribe at h
  split at h
  · exact absurd h (by simp)
  · rename_i u heq
    cases u
    injection h with h2
    exact ⟨heq, h2.symm⟩

theorem checkTopics_error_of_missing (topics patterns : List (String × TopicData)) :
    ∀ (names : List String) (t : String), t ∈ names →
    mapContains topics t = false → mapContains patterns t = false →
    ∃ e, checkTopics topics patterns names = .error e := by
  intro names
  induction names with
  | nil => intro t ht _ _; cases ht
  | cons name rest ih =>
    intro t ht h1 h2
    rcases List.mem_cons.mp ht with rfl | htr
    · cases hw : is_topic_contains_wildcards t with
      | error e => exact ⟨e, by simp [checkTopics, hw]⟩
      | ok w =>
        cases w
        · exact ⟨"Client Subscribe, topic " ++ t ++ " can't find handler!",
            by simp [checkTopics, hw, h1]⟩
        · exact ⟨"Client Subscribe, topic " ++ t ++ " can't find handler!",
            by simp [checkTopics, hw, h2]⟩
    · cases hw : is_topic_contains_wildcards name with
      | error e => exact ⟨e, by simp [checkTopics, hw]⟩
      | ok w =>
        by_cases hc : (if w then mapContains patterns name else mapContains topics name) = true
        · obtain ⟨e, he⟩ := ih t htr h1 h2
          exact ⟨e, by simp [checkTopics, hw, hc, he]⟩
        · exact ⟨"Client Subscribe, topic " ++ name ++ " can't find handler!",
            by simp only [checkTopics, hw]; rw [if_neg hc]⟩

/-- C1, evaluation at the failing input: with a handler registered for "a"
and a transport attached, subscribe([("a", ExactlyOnce)]) puts a SUBSCRIBE
packet on the wire whose topic entry still carries the caller's QoS
(ExactlyOnce, not AtMostOnce); the publish half of the claim does hold: the
PUBLISH sent for a caller-requested ExactlyOnce carries AtMostOnce. -/
theorem c1_wire_qos_eval :
    (subscribe c1ex [("a", QoS.exactlyOnce)] none).toOption.map Prod.snd
      = some [Event.sent (Action.subscribe 0 [("a", QoS.exactlyOnce)])]
    ∧ QoS.exactlyOnce ≠ QoS.atMostOnce
    ∧ (publish c1ex false QoS.exactlyOnce "a" [1]).toOption.map Prod.snd
      = some [Event.sent (Action.publish false QoS.atMostOnce "a" [1])] := by
  decide

/-- C2 counterexample: with the subscribe counter at 32768, the completion
callback is stored at key (2*32768+1) mod 2^16 = 1, not at key
2*32768+1 = 65537 — the source computes 2*id+1 in 16-bit arithmetic. -/
theorem c2_counterexample :
    c2ex.curr_sub_id = 32768
    ∧ (subscribe c2ex [("a", QoS.atMostOnce)] (some 5)).toOption.map
        (fun r => r.1.sub_map) = some [(1, some 5)]
    ∧ 2 * c2ex.curr_sub_id + 1 = 65537
    ∧ mapContains [((1 : Nat), some (5 : Nat))] 65537 = false := by
  decide

/-- C2 (amended): a subscribe completion is stored at key (2*id+1) mod 2^16
(an odd key) and an unsubscribe completion at key (2*id) mod 2^16 (an even
key), where id is the respective counter value, so the two key families never
collide; a Suback with packet identifier id removes exactly the key
(2*id+1) mod 2^16 and invokes the callback stored there, and an Unsuback the
key (2*id) mod 2^16. -/
theorem c2_correlation_keys :
    (∀ (s : ClientNodeImpl) (ts : List (String × QoS)) (f : Nat)
       (r : ClientNodeImpl × List Event),
       subscribe s ts (some f) = .ok r →
       mapLookup r.1.sub_map ((2 * s.curr_sub_id + 1) % 65536) = some (some f)
       ∧ ((2 * s.curr_sub_id + 1) % 65536) % 2 = 1
       ∧ recv_sub_ack r.1 s.curr_sub_id
         = ({ r.1 with
              sub_map := mapRemove r.1.sub_map ((2 * s.curr_sub_id + 1) % 65536) },
            [f]))
  ∧ (∀ (s : ClientNodeImpl) (ts : List String) (f : Nat)
       (r : ClientNodeImpl × List Event),
       unsubscribe s ts (some f) = .ok r →
       mapLookup r.1.sub_map ((2 * s.curr_unsub_id) % 65536) = some (some f)
       ∧ ((2 * s.curr_unsub_id) % 65536) % 2 = 0
       ∧ recv_unsub_ack r.1 s.curr_unsub_id
         = ({ r.1 with
              sub_map := mapRemove r.1.sub_map ((2 * s.curr_unsub_id) % 65536) },
            [f]))
  ∧ (∀ a b : Nat, (2 * a + 1) % 65536 ≠ (2 * b) % 65536) := by
  refine ⟨?_, ?_, ?_⟩
  · intro s ts f r h
    obtain ⟨hc, hr⟩ := subscribe_ok_inv h
    have hm : r.1.sub_map
        = mapInsert s.sub_map ((2 * s.curr_sub_id + 1) % 65536) (some f) := by
      rw [hr]
      exact (handle_slot_fst_preserve _ _).2.2.1
    have hlook : mapLookup r.1.sub_map ((2 * s.curr_sub_id + 1) % 65536)
        = some (some f) := by
      rw [hm]; exact mapLookup_insert_self _ _ _
    refine ⟨hlook, ?_, ?_⟩
    · rw [Nat.mod_mod_of_dvd _ (by norm_num : (2:ℕ) ∣ 65536)]
      omega
    · have hk : (1 + s.curr_sub_id * 2) % 65536 = (2 * s.curr_sub_id + 1) % 65536 := by
        omega
      unfold recv_sub_ack
      rw [hk, hlook]
  · intro s ts f r h
    obtain ⟨hc, hr⟩ := unsubscribe_ok_inv h
    have hm : r.1.sub_map
        = mapInsert s.sub_map ((2 * s.curr_unsub_id) % 65536) (some f) := by
      rw [hr]
      exact (handle_slot_fst_preserve _ _).2.2.1
    have hlook : mapLookup r.1.sub_map ((2 * s.curr_unsub_id) % 65536)
        = some (some f) := by
      rw [hm]; exact mapLookup_insert_self _ _ _
    refine ⟨hlook, ?_, ?_⟩
    · rw [Nat.mod_mod_of_dvd _ (by norm_num : (2:ℕ) ∣ 65536)]
      omega
    · have hk : (s.curr_unsub_id * 2) % 65536 = (2 * s.curr_unsub_id) % 65536 := by
        omega
      unfold recv_unsub_ack
      rw [hk, hlook]
  · intro a b hab
    have h1 : (2 * a + 1) % 65536 % 2 = (2 * b) % 65536 % 2 := by rw [hab]
    rw [Nat.mod_mod_of_dvd _ (by norm_num : (2:ℕ) ∣ 65536),
        Nat.mod_mod_of_dvd _ (by norm_num : (2:ℕ) ∣ 65536)] at h1
    omega

/-- C2 witness: the amended statement instantiated at a concrete successful
subscribe and unsubscribe against the attached client c1ex. -/
theorem c2_correlation_keys_witness :
    (mapLookup c2wRes.1.sub_map ((2 * c1ex.curr_sub_id + 1) % 65536) = some (some 5)
     ∧ ((2 * c1ex.curr_sub_id + 1) % 65536) % 2 = 1
     ∧ recv_sub_ack c2wRes.1 c1ex.curr_sub_id
       = ({ c2wRes.1 with
            sub_map := mapRemove c2wRes.1.sub_map ((2 * c1ex.curr_sub_id + 1) % 65536) },
          [5]))
    ∧ (mapLookup c2wRes2.1.sub_map ((2 * c1ex.curr_unsub_id) % 65536) = some (some 5)
     ∧ ((2 * c1ex.curr_unsub_id) % 65536) % 2 = 0
     ∧ recv_unsub_ack c2wRes2.1 c1ex.curr_unsub_id
       = ({ c2wRes2.1 with
            sub_map := mapRemove c2wRes2.1.sub_map ((2 * c1ex.curr_unsub_id) % 65536) },
          [5]))
    ∧ ((2 * 3 + 1) % 65536 ≠ (2 * 3) % 65536) :=
  ⟨c2_correlation_keys.1 c1ex [("a", QoS.atMostOnce)] 5 c2wRes rfl,
   c2_correlation_keys.2.1 c1ex ["a"] 5 c2wRes2 rfl,
   c2_correlation_keys.2.2 3 3⟩

/-- C3: when any topic in the list has no handler registered in the exact or
pattern registry, subscribe (and symmetrically unsubscribe) returns an error,
the state is unchanged, and no action is sent or buffered. -/
theorem c3_unknown_topic_rejected :
    (∀ (s : ClientNodeImpl) (ts : List (String × QoS)) (rf : Option Nat) (t : String),
       t ∈ ts.map Prod.fst →
       mapContains s.topics t = false → mapContains s.topic_patterns t = false →
       (∃ e, subscribe s ts rf = .error e) ∧ runOp s (Op.sub ts rf) = (s, []))
  ∧ (∀ (s : ClientNodeImpl) (ts : List String) (rf : Option Nat) (t : String),
       t ∈ ts →
       mapContains s.topics t = false → mapContains s.topic_patterns t = false →
       (∃ e, unsubscribe s ts rf = .error e) ∧ runOp s (Op.unsub ts rf) = (s, [])) := by
  constructor
  · intro s ts rf t ht h1 h2
    obtain ⟨e, he⟩ :=
      checkTopics_error_of_missing s.topics s.topic_patterns (ts.map Prod.fst) t ht h1 h2
    have hs : subscribe s ts rf = .error e := by
      unfold subscribe; rw [he]
    exact ⟨⟨e, hs⟩, by simp [runOp, hs]⟩
  · intro s ts rf t ht h1 h2
    obtain ⟨e, he⟩ :=
      checkTopics_error_of_missing s.topics s.topic_patterns ts t ht h1 h2
    have hs : unsubscribe s ts rf = .error e := by
      unfold unsubscribe; rw [he]
    exact ⟨⟨e, hs⟩, by simp [runOp, hs]⟩

/-- C3 witness: subscribing and unsubscribing "z" on a fresh client (no
handler registered) fails and leaves the state untouched. -/
theorem c3_unknown_topic_rejected_witness :
    ((∃ e, subscribe newClient [("z", QoS.atMostOnce)] none = .error e)
     ∧ runOp newClient (Op.sub [("z", QoS.atMostOnce)] none) = (newClient, []))
    ∧ ((∃ e, unsubscribe newClient ["z"] none = .error e)
     ∧ runOp newClient (Op.unsub ["z"] none) = (newClient, [])) :=
  ⟨c3_unknown_topic_rejected.1 newClient [("z", QoS.atMostOnce)] none "z"
     (by decide) (by decide) (by decide),
   c3_unknown_topic_rejected.2 newClient ["z"] none "z"
     (by decide) (by decide) (by decide)⟩


theorem runOp_unattached (s : ClientNodeImpl) (op : Op)
    (hs : s.socket = none) (hd : op ≠ Op.disc) :
    (runOp s op).1.socket = none
    ∧ (runOp s op).1.socket_handlers = s.socket_handlers ++ (opAction s op).toList
    ∧ (runOp s op).2 = [] := by
  cases op with
  | conn ka w cf nf =>
    simp [runOp, connect, handle_slot, opAction, hs]
  | sub ts rf =>
    cases hc : checkTopics s.topics s.topic_patterns (ts.map Prod.fst) with
    | error e => simp [runOp, subscribe, hc, opAction, hs]
    | ok u =>
      cases u
      simp [runOp, subscribe, hc, opAction, handle_slot, hs]
  | unsub ts rf =>
    cases hc : checkTopics s.topics s.topic_patterns ts with
    | error e => simp [runOp, unsubscribe, hc, opAction, hs]
    | ok u =>
      cases u
      simp [runOp, unsubscribe, hc, opAction, handle_slot, hs]
  | pub r q t p =>
    cases hw : is_topic_contains_wildcards t with
    | error e => simp [runOp, publish, hw, opAction, hs]
    | ok b =>
      cases b
      · simp [runOp, publish, hw, opAction, handle_slot, hs]
      · simp [runOp, publish, hw, opAction, hs]
  | disc => exact absurd rfl hd

theorem runOps_unattached (s : ClientNodeImpl) (ops : List Op)
    (hs : s.socket = none) (hd : ∀ op ∈ ops, op ≠ Op.disc) :
    (runOps s ops).1.socket = none
    ∧ (runOps s ops).1.socket_handlers = s.socket_handlers ++ submittedActions s ops
    ∧ (runOps s ops).2 = [] := by
  induction ops generalizing s with
  | nil => simp [runOps, submittedActions, hs]
  | cons op rest ih =>
    have hop := runOp_unattached s op hs (hd op (List.mem_cons_self op rest))
    have hrest := ih (runOp s op).1 hop.1
      (fun o ho => hd o (List.mem_cons_of_mem _ ho))
    refine ⟨?_, ?_, ?_⟩
    · simp only [runOps]
      exact hrest.1
    · simp only [runOps, submittedActions]
      rw [hrest.2.1, hop.2.1, List.append_assoc]
    · simp only [runOps]
      rw [hop.2.2, hrest.2.2]
      rfl

theorem runOp_attached (s : ClientNodeImpl) (op : Op) (a : Action) (k : Nat)
    (hs : s.socket = some k) (hd : op ≠ Op.disc) (ha : opAction s op = some a) :
    (runOp s op).2.head? = some (Event.sent a)
    ∧ (runOp s op).1.socket_handlers = s.socket_handlers := by
  cases op with
  | conn ka w cf nf =>
    simp only [opAction, Option.some.injEq] at ha
    subst ha
    simp [runOp, connect, handle_slot, hs]
  | sub ts rf =>
    cases hc : checkTopics s.topics s.topic_patterns (ts.map Prod.fst) with
    | error e => simp [opAction, hc] at ha
    | ok u =>
      cases u
      simp only [opAction, hc, Option.some.injEq] at ha
      subst ha
      simp [runOp, subscribe, hc, handle_slot, hs]
  | unsub ts rf =>
    cases hc : checkTopics s.topics s.topic_patterns ts with
    | error e => simp [opAction, hc] at ha
    | ok u =>
      cases u
      simp only [opAction, hc, Option.some.injEq] at ha
      subst ha
      simp [runOp, unsubscribe, hc, handle_slot, hs]
  | pub r q t p =>
    cases hw : is_topic_contains_wildcards t with
    | error e => simp [opAction, hw] at ha
    | ok b =>
      cases b
      · simp only [opAction, hw, Option.some.injEq] at ha
        subst ha
        simp [runOp, publish, hw, handle_slot, hs]
      · simp [opAction, hw] at ha
  | disc => exact absurd rfl hd

/-- C4 counterexample: c4ex has keep-alive interval 1 and one buffered
action; set_stream drains the queue yet emits no keep-alive arming event. -/
theorem c4_counterexample :
    c4ex.keep_alive ≠ 0
    ∧ c4ex.socket = none
    ∧ c4ex.socket_handlers ≠ []
    ∧ (set_stream c4ex 0 0).2 = [Event.sent Action.disconnect]
    ∧ (set_stream c4ex 0 0).2.any Event.isArm = false := by
  decide

/-- C4 (amended): set_stream drains the buffered actions but never arms the
keep-alive scheduler itself; the scheduler is armed when a subsequent
operation routed through handle_slot executes its action immediately against
an attached transport while the configured keep-alive interval is non-zero. -/
theorem c4_arming_after_drain :
    (∀ (s : ClientNodeImpl) (sk st : Nat),
       (set_stream s sk st).2 = s.socket_handlers.map Event.sent
       ∧ (set_stream s sk st).2.any Event.isArm = false)
  ∧ (∀ (s : ClientNodeImpl) (a : Action) (k : Nat),
       s.socket = some k → s.keep_alive ≠ 0 →
       (handle_slot s a).2 = [Event.sent a, Event.armedKeepAlive s.keep_alive]) := by
  constructor
  · intro s sk st
    refine ⟨rfl, ?_⟩
    show (s.socket_handlers.map Event.sent).any Event.isArm = false
    simp [List.any_map, Function.comp, Event.isArm]
  · intro s a k hs hk
    have hpos : 0 < s.keep_alive := Nat.pos_of_ne_zero hk
    unfold handle_slot ping
    rw [hs]
    simp [hpos]

/-- C4 witness: the amended statement at set_stream on c4ex and at an
immediately executed action on the attached client kaEx. -/
theorem c4_arming_after_drain_witness :
    ((set_stream c4ex 0 0).2 = c4ex.socket_handlers.map Event.sent
     ∧ (set_stream c4ex 0 0).2.any Event.isArm = false)
    ∧ (handle_slot kaEx Action.disconnect).2
      = [Event.sent Action.disconnect, Event.armedKeepAlive kaEx.keep_alive] :=
  ⟨c4_arming_after_drain.1 c4ex 0 0,
   c4_arming_after_drain.2 kaEx Action.disconnect 0 rfl (by decide)⟩

/-- C5 counterexample: a publish buffered while no transport is attached,
followed by a disconnect, is never executed — the disconnect clears the
pending queue, so the later set_stream replays nothing instead of replaying
the buffered actions in submission order. -/
theorem c5_counterexample :
    (runOp newClient (Op.pub false QoS.atMostOnce "t" [1])).1.socket_handlers
      = [Action.publish false QoS.atMostOnce "t" [1]]
    ∧ (runOps newClient c5cexOps).2 = []
    ∧ (runOps newClient c5cexOps).1.socket_handlers = []
    ∧ (set_stream (runOps newClient c5cexOps).1 0 0).2 = [] := by
  decide

/-- C5 (amended): for every sequence of operations other than disconnect
issued while no transport is attached, nothing is sent, and the later
set_stream executes exactly the buffered actions, in submission order, and
empties the queue; an operation issued while a transport is attached executes
its action immediately and buffers nothing. A buffered disconnect instead
clears the queue, discarding the actions buffered before it. -/
theorem c5_fifo_replay :
    (∀ (s : ClientNodeImpl) (ops : List Op) (sk st : Nat),
       s.socket = none → (∀ op ∈ ops, op ≠ Op.disc) →
       (runOps s ops).2 = []
       ∧ (set_stream (runOps s ops).1 sk st).2
         = (s.socket_handlers ++ submittedActions s ops).map Event.sent
       ∧ (set_stream (runOps s ops).1 sk st).1.socket_handlers = [])
  ∧ (∀ (s : ClientNodeImpl) (op : Op) (a : Action) (k : Nat),
       s.socket = some k → op ≠ Op.disc → opAction s op = some a →
       (runOp s op).2.head? = some (Event.sent a)
       ∧ (runOp s op).1.socket_handlers = s.socket_handlers) := by
  constructor
  · intro s ops sk st hs hd
    obtain ⟨h1, h2, h3⟩ := runOps_unattached s ops hs hd
    refine ⟨h3, ?_, rfl⟩
    show ((runOps s ops).1.socket_handlers.map Event.sent) = _
    rw [h2]
  · intro s op a k hs hd ha
    exact runOp_attached s op a k hs hd ha

/-- C5 witness: the amended statement at a single buffered publish on a fresh
client, and at an immediately executed publish on the attached client c1ex. -/
theorem c5_fifo_replay_witness :
    ((runOps newClient c5wOps).2 = []
     ∧ (set_stream (runOps newClient c5wOps).1 0 0).2
       = (newClient.socket_handlers ++ submittedActions newClient c5wOps).map Event.sent
     ∧ (set_stream (runOps newClient c5wOps).1 0 0).1.socket_handlers = [])
    ∧ ((runOp c1ex (Op.pub false QoS.atMostOnce "a" [2])).2.head?
       = some (Event.sent (Action.publish false QoS.atMostOnce "a" [2]))
     ∧ (runOp c1ex (Op.pub false QoS.atMostOnce "a" [2])).1.socket_handlers
       = c1ex.socket_handlers) :=
  ⟨c5_fifo_replay.1 newClient c5wOps 0 0 rfl (by decide),
   c5_fifo_replay.2 c1ex (Op.pub false QoS.atMostOnce "a" [2])
     (Action.publish false QoS.atMostOnce "a" [2]) 0 rfl (by decide) (by decide)⟩


theorem mem_pats_inv {patterns : List (String × TopicData)} {tl : List Level}
    {payload : List Nat} {x : Nat × List Nat}
    (hx : x ∈ (patterns.filter fun p => isMatch p.2.topic tl).map
        fun p => (p.2.func, payload)) :
    ∃ q ∈ patterns, isMatch q.2.topic tl = true ∧ x = (q.2.func, payload) := by
  obtain ⟨q, hq, hxe⟩ := List.mem_map.mp hx
  obtain ⟨hqm, hqf⟩ := List.mem_filter.mp hq
  exact ⟨q, hqm, hqf, hxe.symm⟩

/-- C6: for an inbound publish with topic name t (parsing to tl) dispatched
against a client whose registered handlers are pairwise distinct, the handler
registered for t in the exact-topic map, if any, is invoked exactly once with
the payload; a handler registered under a different exact name is not
invoked; and each pattern-map handler is invoked if and only if its wildcard
filter matches t. -/
theorem c6_publish_dispatch :
    ∀ (s : ClientNodeImpl) (t : String) (payload : List Nat)
      (tl : List Level) (out : List (Nat × List Nat)),
      parsePath t = .ok tl →
      recv_publish s t payload = some out →
      ((s.topics.map fun p => p.2.func)
        ++ (s.topic_patterns.map fun p => p.2.func)).Nodup →
      (match mapLookup s.topics t with
       | some d => out.count (d.func, payload) = 1
       | none => True)
      ∧ (∀ p ∈ s.topics, p.1 ≠ t → (p.2.func, payload) ∉ out)
      ∧ (∀ p ∈ s.topic_patterns,
           ((p.2.func, payload) ∈ out ↔ isMatch p.2.topic tl = true)) := by
  intro s t payload tl out hparse hout hnd
  cases hsock : s.socket with
  | none =>
    simp only [recv_publish, hparse, hsock] at hout
    exact Option.noConfusion hout
  | some k =>
    simp only [recv_publish, hparse, hsock, Option.some.injEq] at hout
    obtain ⟨hnd1, hnd2, hdisj⟩ := List.nodup_append.mp hnd
    subst hout
    refine ⟨?_, ?_, ?_⟩
    · cases hlk : mapLookup s.topics t with
      | none => simp [hlk]
      | some d =>
        have hdm : (t, d) ∈ s.topics := mapLookup_mem hlk
        have hdf : d.func ∈ s.topics.map fun p => p.2.func :=
          List.mem_map.mpr ⟨(t, d), hdm, rfl⟩
        have hnotp : (d.func, payload) ∉
            (s.topic_patterns.filter fun p => isMatch p.2.topic tl).map
              fun p => (p.2.func, payload) := by
          intro hmem
          obtain ⟨q, hqm, _, hqe⟩ := mem_pats_inv hmem
          have hqf : q.2.func ∈ s.topic_patterns.map fun p => p.2.func :=
            List.mem_map.mpr ⟨q, hqm, rfl⟩
          have hfe : d.func = q.2.func := by
            injection hqe with h1 h2
          rw [hfe] at hdf
          exact hdisj hdf hqf
        simp only [hlk, List.singleton_append]
        rw [List.count_cons_self, List.count_eq_zero.mpr hnotp]
    · intro p hp hne hmem
      rcases List.mem_append.mp hmem with hin | hin
      · cases hlk : mapLookup s.topics t with
        | none => rw [hlk] at hin; cases hin
        | some d =>
          rw [hlk] at hin
          have he := List.mem_singleton.mp hin
          have hfe : p.2.func = d.func := by
            injection he with h1 h2
          have hdm : (t, d) ∈ s.topics := mapLookup_mem hlk
          have hpd := List.inj_on_of_nodup_map hnd1 hp hdm hfe
          exact hne (by rw [hpd])
      · obtain ⟨q, hqm, _, hqe⟩ := mem_pats_inv hin
        have hfe : p.2.func = q.2.func := by
          injection hqe with h1 h2
        have hpf : p.2.func ∈ s.topics.map fun p => p.2.func :=
          List.mem_map.mpr ⟨p, hp, rfl⟩
        have hqf : q.2.func ∈ s.topic_patterns.map fun p => p.2.func :=
          List.mem_map.mpr ⟨q, hqm, rfl⟩
        rw [hfe] at hpf
        exact hdisj hpf hqf
    · intro p hp
      constructor
      · intro hmem
        rcases List.mem_append.mp hmem with hin | hin
        · cases hlk : mapLookup s.topics t with
          | none => rw [hlk] at hin; cases hin
          | some d =>
            rw [hlk] at hin
            have he := List.mem_singleton.mp hin
            have hfe : p.2.func = d.func := by
              injection he with h1 h2
            have hdm : (t, d) ∈ s.topics := mapLookup_mem hlk
            have hdf : d.func ∈ s.topics.map fun p => p.2.func :=
              List.mem_map.mpr ⟨(t, d), hdm, rfl⟩
            have hpf : p.2.func ∈ s.topic_patterns.map fun p => p.2.func :=
              List.mem_map.mpr ⟨p, hp, rfl⟩
            rw [hfe] at hpf
            exact (hdisj hdf hpf).elim
        · obtain ⟨q, hqm, hqmatch, hqe⟩ := mem_pats_inv hin
          have hfe : p.2.func = q.2.func := by
            injection hqe with h1 h2
          have hpq := List.inj_on_of_nodup_map hnd2 hp hqm hfe
          rw [hpq]
          exact hqmatch
      · intro hmatch
        refine List.mem_append.mpr (Or.inr ?_)
        exact List.mem_map.mpr ⟨p, List.mem_filter.mpr ⟨hp, hmatch⟩, rfl⟩

/-- C6 witness: dispatching payload [9] to "a/b" against c6ex invokes the
exact handler for "a/b" once and the pattern handler for "a/+", and not the
pattern handler for "x/#". -/
theorem c6_publish_dispatch_witness :
    (match mapLookup c6ex.topics "a/b" with
     | some d => c6out.count (d.func, ([9] : List Nat)) = 1
     | none => True)
    ∧ (∀ p ∈ c6ex.topics, p.1 ≠ "a/b" → (p.2.func, ([9] : List Nat)) ∉ c6out)
    ∧ (∀ p ∈ c6ex.topic_patterns,
         ((p.2.func, ([9] : List Nat)) ∈ c6out ↔ isMatch p.2.topic c6tl = true)) :=
  c6_publish_dispatch c6ex "a/b" [9] c6tl c6out rfl rfl (by decide)


/-- C7: after disconnect, both topic registries, the attribute map, the
correlation table and the pending-action queue are empty, both counters are
zero, and the connect and close callbacks are cleared, whatever the prior
state of the client was. -/
theorem c7_disconnect_clears (s : ClientNodeImpl) :
    (disconnect s).1.topics = []
    ∧ (disconnect s).1.topic_patterns = []
    ∧ (disconnect s).1.attributes = []
    ∧ (disconnect s).1.sub_map = []
    ∧ (disconnect s).1.socket_handlers = []
    ∧ (disconnect s).1.curr_sub_id = 0
    ∧ (disconnect s).1.curr_unsub_id = 0
    ∧ (disconnect s).1.connect_func = none
    ∧ (disconnect s).1.close_func = none :=
  ⟨rfl, rfl, rfl, rfl, rfl, rfl, rfl, rfl, rfl⟩

theorem subscribe_ok_of_check {s : ClientNodeImpl} {ts : List (String × QoS)}
    (rf : Option Nat)
    (hc : checkTopics s.topics s.topic_patterns (ts.map Prod.fst) = .ok ()) :
    subscribe s ts rf = .ok (handle_slot
      { s with sub_map := mapInsert s.sub_map ((2 * s.curr_sub_id + 1) % 65536) rf,
               curr_sub_id := if s.curr_sub_id < 65535 then s.curr_sub_id + 1 else 0 }
      (Action.subscribe s.curr_sub_id ts)) := by
  unfold subscribe
  rw [hc]

theorem subscribe_ok_state {s : ClientNodeImpl} {ts : List (String × QoS)}
    {rf : Option Nat} {r : ClientNodeImpl × List Event}
    (h : subscribe s ts rf = .ok r) :
    r.1.topics = s.topics ∧ r.1.topic_patterns = s.topic_patterns
    ∧ r.1.curr_sub_id = (if s.curr_sub_id < 65535 then s.curr_sub_id + 1 else 0) := by
  obtain ⟨hc, hr⟩ := subscribe_ok_inv h
  rw [hr]
  exact ⟨(handle_slot_fst_preserve _ _).2.2.2.2.2.1,
         (handle_slot_fst_preserve _ _).2.2.2.2.2.2.1,
         (handle_slot_fst_preserve _ _).2.2.2.1⟩

theorem subN_invariant (s : ClientNodeImpl) (ts : List (String × QoS))
    (hc : checkTopics s.topics s.topic_patterns (ts.map Prod.fst) = .ok ())
    (hlt : s.curr_sub_id < 65536) :
    ∀ n, (subN s ts n).topics = s.topics
      ∧ (subN s ts n).topic_patterns = s.topic_patterns
      ∧ (subN s ts n).curr_sub_id = (s.curr_sub_id + n) % 65536 := by
  intro n
  induction n with
  | zero => exact ⟨rfl, rfl, (Nat.mod_eq_of_lt hlt).symm⟩
  | succ n ih =>
    obtain ⟨h1, h2, h3⟩ := ih
    have hc2 : checkTopics (subN s ts n).topics (subN s ts n).topic_patterns
        (ts.map Prod.fst) = .ok () := by
      rw [h1, h2]; exact hc
    have hsub := subscribe_ok_of_check (s := subN s ts n) none hc2
    have hstep : subN s ts (n + 1)
        = (handle_slot
            { subN s ts n with
              sub_map := mapInsert (subN s ts n).sub_map
                ((2 * (subN s ts n).curr_sub_id + 1) % 65536) none,
              curr_sub_id := if (subN s ts n).curr_sub_id < 65535 then
                (subN s ts n).curr_sub_id + 1 else 0 }
            (Action.subscribe (subN s ts n).curr_sub_id ts)).1 := by
      simp only [subN]
      rw [hsub]
    refine ⟨?_, ?_, ?_⟩
    · rw [hstep, (handle_slot_fst_preserve _ _).2.2.2.2.2.1]
      exact h1
    · rw [hstep, (handle_slot_fst_preserve _ _).2.2.2.2.2.2.1]
      exact h2
    · rw [hstep, (handle_slot_fst_preserve _ _).2.2.2.1]
      show (if (subN s ts n).curr_sub_id < 65535 then (subN s ts n).curr_sub_id + 1 else 0)
        = (s.curr_sub_id + (n + 1)) % 65536
      rw [h3]
      rcases Nat.lt_or_ge ((s.curr_sub_id + n) % 65536) 65535 with hlt2 | hge
      · rw [if_pos hlt2]; omega
      · rw [if_neg (Nat.not_lt.mpr hge)]; omega

/-- C8: a successful subscribe increments the subscribe counter by exactly
one, wrapping to 0 only after reaching 65535; iterated subscribes carry wire
packet identifier (initial + n) mod 65536 on their n-th call, each call puts
(or buffers) a SUBSCRIBE action carrying that identifier, consecutive calls
carry distinct identifiers, and identifiers repeat exactly with period
65536. -/
theorem c8_packet_id_counter :
    ∀ (s : ClientNodeImpl) (ts : List (String × QoS)),
      s.curr_sub_id < 65536 →
      checkTopics s.topics s.topic_patterns (ts.map Prod.fst) = .ok () →
      (∀ (rf : Option Nat) (r : ClientNodeImpl × List Event),
         subscribe s ts rf = .ok r →
         r.1.curr_sub_id = (if s.curr_sub_id < 65535 then s.curr_sub_id + 1 else 0))
      ∧ (∀ n, wireIdN s ts n = (s.curr_sub_id + n) % 65536)
      ∧ (∀ n, ∃ r, subscribe (subN s ts n) ts none = .ok r
          ∧ (r.2.head? = some (Event.sent (Action.subscribe (wireIdN s ts n) ts))
             ∨ r.1.socket_handlers
               = (subN s ts n).socket_handlers ++ [Action.subscribe (wireIdN s ts n) ts]))
      ∧ (∀ n, wireIdN s ts n ≠ wireIdN s ts (n + 1))
      ∧ (∀ n m, wireIdN s ts n = wireIdN s ts m ↔ n % 65536 = m % 65536) := by
  intro s ts hlt hc
  refine ⟨?_, ?_, ?_, ?_, ?_⟩
  · intro rf r h
    exact (subscribe_ok_state h).2.2
  · intro n
    exact (subN_invariant s ts hc hlt n).2.2
  · intro n
    have hc2 : checkTopics (subN s ts n).topics (subN s ts n).topic_patterns
        (ts.map Prod.fst) = .ok () := by
      rw [(subN_invariant s ts hc hlt n).1, (subN_invariant s ts hc hlt n).2.1]
      exact hc
    refine ⟨_, subscribe_ok_of_check none hc2, ?_⟩
    cases hso : (subN s ts n).socket with
    | none =>
      right
      simp only [wireIdN]
      unfold handle_slot
      simp [hso]
    | some k =>
      left
      simp only [wireIdN]
      unfold handle_slot
      simp [hso]
  · intro n
    simp only [wireIdN]
    rw [(subN_invariant s ts hc hlt n).2.2, (subN_invariant s ts hc hlt (n + 1)).2.2]
    omega
  · intro n m
    simp only [wireIdN]
    rw [(subN_invariant s ts hc hlt n).2.2, (subN_invariant s ts hc hlt m).2.2]
    omega

/-- C8 witness: the statement instantiated at the attached client c1ex with
the registered topic "a". -/
theorem c8_packet_id_counter_witness :
    (∀ (rf : Option Nat) (r : ClientNodeImpl × List Event),
       subscribe c1ex [("a", QoS.atMostOnce)] rf = .ok r →
       r.1.curr_sub_id
         = (if c1ex.curr_sub_id < 65535 then c1ex.curr_sub_id + 1 else 0))
    ∧ (∀ n, wireIdN c1ex [("a", QoS.atMostOnce)] n = (c1ex.curr_sub_id + n) % 65536)
    ∧ (∀ n, ∃ r, subscribe (subN c1ex [("a", QoS.atMostOnce)] n) [("a", QoS.atMostOnce)] none = .ok r
        ∧ (r.2.head? = some (Event.sent
             (Action.subscribe (wireIdN c1ex [("a", QoS.atMostOnce)] n) [("a", QoS.atMostOnce)]))
           ∨ r.1.socket_handlers
             = (subN c1ex [("a", QoS.atMostOnce)] n).socket_handlers
               ++ [Action.subscribe (wireIdN c1ex [("a", QoS.atMostOnce)] n) [("a", QoS.atMostOnce)]]))
    ∧ (∀ n, wireIdN c1ex [("a", QoS.atMostOnce)] n ≠ wireIdN c1ex [("a", QoS.atMostOnce)] (n + 1))
    ∧ (∀ n m, wireIdN c1ex [("a", QoS.atMostOnce)] n = wireIdN c1ex [("a", QoS.atMostOnce)] m
        ↔ n % 65536 = m % 65536) :=
  c8_packet_id_counter c1ex [("a", QoS.atMostOnce)] (by decide) rfl

theorem add_attribute_second_noop (s : ClientNodeImpl) (k : String) (v1 v2 : List Nat) :
    add_attribute (add_attribute s k v1) k v2 = add_attribute s k v1 := by
  by_cases hc : mapContains s.attributes k = true
  · have h1 : add_attribute s k v1 = s := by
      unfold add_attribute; rw [if_pos hc]
    rw [h1]
    unfold add_attribute; rw [if_pos hc]
  · have h1 : add_attribute s k v1
        = { s with attributes := mapInsert s.attributes k v1 } := by
      unfold add_attribute; rw [if_neg hc]
    rw [h1]
    unfold add_attribute
    rw [if_pos (mapContains_insert_self s.attributes k v1)]

/-- C9: add_attribute(k, v1) followed by add_attribute(k, v2) is observably
the same as add_attribute(k, v1) alone — the second insert is a no-op because
the name already exists — and when k was previously absent, get_attribute(k)
returns v1 afterwards. -/
theorem c9_attribute_first_write :
    (∀ (s : ClientNodeImpl) (k : String) (v1 v2 : List Nat),
       add_attribute (add_attribute s k v1) k v2 = add_attribute s k v1)
  ∧ (∀ (s : ClientNodeImpl) (k : String) (v1 v2 : List Nat),
       mapContains s.attributes k = false →
       get_attribute (add_attribute (add_attribute s k v1) k v2) k = some v1) := by
  constructor
  · exact add_attribute_second_noop
  · intro s k v1 v2 hcf
    have hc : ¬ mapContains s.attributes k = true := by simp [hcf]
    have h1 : add_attribute s k v1
        = { s with attributes := mapInsert s.attributes k v1 } := by
      unfold add_attribute; rw [if_neg hc]
    rw [add_attribute_second_noop, h1]
    unfold get_attribute
    exact mapLookup_insert_self s.attributes k v1

/-- C9 witness: on a fresh client, adding "k" twice keeps the first value. -/
theorem c9_attribute_first_write_witness :
    (add_attribute (add_attribute newClient "k" [9]) "k" [8]
      = add_attribute newClient "k" [9])
    ∧ get_attribute (add_attribute (add_attribute newClient "k" [9]) "k" [8]) "k"
      = some [9] :=
  ⟨c9_attribute_first_write.1 newClient "k" [9] [8],
   c9_attribute_first_write.2 newClient "k" [9] [8] (by decide)⟩

/-- C10: disconnect leaves the socket, the stream and the configured
keep-alive interval unchanged; when a transport was attached before the
disconnect it is still attached afterwards, so an action routed through
handle_slot after the disconnect executes immediately against the old
transport instead of being buffered. -/
theorem c10_disconnect_keeps_transport :
    (∀ s : ClientNodeImpl,
       (disconnect s).1.socket = s.socket ∧ (disconnect s).1.stream = s.stream
       ∧ (disconnect s).1.keep_alive = s.keep_alive)
  ∧ (∀ (s : ClientNodeImpl) (k : Nat) (a : Action),
       s.socket = some k →
       (handle_slot (disconnect s).1 a).2.head? = some (Event.sent a)
       ∧ (handle_slot (disconnect s).1 a).1.socket_handlers
         = (disconnect s).1.socket_handlers) := by
  constructor
  · intro s
    exact ⟨(handle_slot_fst_preserve s Action.disconnect).1,
           (handle_slot_fst_preserve s Action.disconnect).2.1,
           (handle_slot_fst_preserve s Action.disconnect).2.2.2.2.2.2.2.2.1⟩
  · intro s k a hs
    have hds : (disconnect s).1.socket = some k := by
      have := (handle_slot_fst_preserve s Action.disconnect).1
      show (handle_slot s Action.disconnect).1.socket = some k
      rw [this, hs]
    simp [handle_slot, hds]

/-- C10 witness: the statement at the attached client c1ex. -/
theorem c10_disconnect_keeps_transport_witness :
    ((disconnect c1ex).1.socket = c1ex.socket
     ∧ (disconnect c1ex).1.stream = c1ex.stream
     ∧ (disconnect c1ex).1.keep_alive = c1ex.keep_alive)
    ∧ ((handle_slot (disconnect c1ex).1 Action.disconnect).2.head?
       = some (Event.sent Action.disconnect)
     ∧ (handle_slot (disconnect c1ex).1 Action.disconnect).1.socket_handlers
       = (disconnect c1ex).1.socket_handlers) :=
  ⟨c10_disconnect_keeps_transport.1 c1ex,
   c10_disconnect_keeps_transport.2 c1ex 0 Action.disconnect rfl⟩

end MqttTmp
